import Mathlib

/-!
Shallow embedding of `scripts/github_pr_branch_creator.py` (class
`GitHubPRBranchCreator`) and proofs about the claims of the specification.

Modelling conventions:
* Python strings are Lean `String` (a list of unicode code points), matching
  Python's code-point view of `str`.
* HTTP calls and subprocess invocations are external collaborators; each
  modelled method takes the outcome of those calls as an explicit argument
  (an environment / oracle), and the Lean function reproduces the method's
  control flow over those outcomes.
* Fallible parsing returns `Except String _`; the error payload is the
  offending input string, mirroring `ValueError(f"Invalid ... {url}")`.
-/

/-! ## Python string primitives used by the script -/

/-- Python whitespace characters stripped by `str.strip()` (ASCII subset;
the script only ever handles ASCII URLs). -/
def isPyWs (c : Char) : Bool :=
  c == ' ' || c == '\t' || c == '\n' || c == '\r' || c == '\x0B' || c == '\x0C'

/-- `url.strip()` on the underlying character list. -/
def pyStrip (l : List Char) : List Char :=
  ((l.dropWhile isPyWs).reverse.dropWhile isPyWs).reverse

/-- Substring containment on character lists: Python's `pat in s`. -/
def listContainsSub (s pat : List Char) : Bool :=
  match s with
  | [] => pat.isEmpty
  | _ :: tl => pat.isPrefixOf s || listContainsSub tl pat

/-- Python's `pat in s` for strings. -/
def containsSubstr (s pat : String) : Bool :=
  listContainsSub s.data pat.data

/-- Python's `s.lower()` (ASCII behaviour, which is all the script relies on). -/
def pyLower (s : String) : String :=
  String.mk (s.data.map Char.toLower)

/-- Python truthiness-based `target_commit_sha or default`: `None` and the
empty string both fall through to the default. -/
def pyOrStr (t : Option String) (d : String) : String :=
  match t with
  | none => d
  | some s => if s = "" then d else s

/-- Value of a digit string under Python's `int()` (the script only feeds it
the digits matched by `\d+`). -/
def natOfDigits (l : List Char) : Nat :=
  l.foldl (fun n c => 10 * n + (c.toNat - 48)) 0

/-! ## URL Resolver: `_parse_pr_url` (lines 30-43)

The method applies `re.match` with pattern
`https://github\.com/([^/]+)/([^/]+)/pull/(\d+)(?:/commits/([a-f0-9]+))?`
to `url.strip()`.  `re.match` anchors only at the start of the string.  For
this particular pattern the leftmost-greedy semantics are deterministic:
each `[^/]+` is the maximal run of non-slash characters before a literal
`/`, `\d+` is the maximal digit run (the continuation always succeeds, so
it never backtracks), and the optional `(?:/commits/([a-f0-9]+))?` group is
taken exactly when `/commits/` followed by at least one lowercase-hex
character is present, capturing the maximal hex run.  `parseCore` below is
that deterministic reading, step by step. -/

/-- Consume an exact literal from the front of a list. -/
def dropPre : List Char → List Char → Option (List Char)
  | [], s => some s
  | _ :: _, [] => none
  | p :: ps, c :: cs => if p = c then dropPre ps cs else none

/-- The character class `[^/]`. -/
def notSlash (c : Char) : Bool := c != '/'

/-- The character class `[a-f0-9]` of the pinned-commit group. -/
def isLowerHex (c : Char) : Bool := c.isDigit || ('a' ≤ c && c ≤ 'f')

/-- Literal head of the pattern. -/
def githubPre : List Char := "https://github.com/".data

/-- Literal `/pull/` segment of the pattern. -/
def pullSeg : List Char := "/pull/".data

/-- Literal `/commits/` segment of the optional group. -/
def commitsSeg : List Char := "/commits/".data

/-- The optional `(?:/commits/([a-f0-9]+))?` group applied to the text that
follows the PR number: captures the maximal lowercase-hex run after a
literal `/commits/`, or nothing when the group cannot match. -/
def shaCode (rest : List Char) : Option (List Char) :=
  match dropPre commitsSeg rest with
  | none => none
  | some r =>
    if r.takeWhile isLowerHex = [] then none else some (r.takeWhile isLowerHex)

/-- Deterministic rendering of the script's `re.match` call on the stripped
URL: returns the four captured groups (owner, repo, PR-number digits,
optional pinned SHA). -/
def parseCore (s : List Char) :
    Option (List Char × List Char × List Char × Option (List Char)) :=
  match dropPre githubPre s with
  | none => none
  | some s1 =>
    if s1.takeWhile notSlash = [] then none
    else
      match dropPre ['/'] (s1.drop (s1.takeWhile notSlash).length) with
      | none => none
      | some s2 =>
        if s2.takeWhile notSlash = [] then none
        else
          match dropPre pullSeg (s2.drop (s2.takeWhile notSlash).length) with
          | none => none
          | some s3 =>
            if s3.takeWhile Char.isDigit = [] then none
            else
              some (s1.takeWhile notSlash, s2.takeWhile notSlash,
                s3.takeWhile Char.isDigit,
                shaCode (s3.drop (s3.takeWhile Char.isDigit).length))

/-- `_parse_pr_url` (lines 30-43): strip the input, run the regular
expression, and either raise `ValueError` carrying the offending string
(modelled as `Except.error url`) or return
`(owner, repo, int(pr_number), commit_sha)`. -/
def parse_pr_url (url : String) :
    Except String (String × String × Nat × Option String) :=
  match parseCore (pyStrip url.data) with
  | none => Except.error url
  | some (o, r, num, sha) =>
    Except.ok (String.mk o, String.mk r, natOfDigits num, sha.map String.mk)

/-! ## Specification-side shapes for the URL claims -/

/-- Modelled from the spec wording of section 4.1: the reference shape
`https://<host>/<owner>/<repo>/pull/<number>[/commits/<sha>]` with the SHA
in lowercase hex.  Used only to compare the spec's claimed contract with
the implemented parser. -/
def SpecShape (s : String) : Prop :=
  ∃ host owner repo num : String, ∃ sha : Option String,
    host ≠ "" ∧ '/' ∉ host.data ∧
    owner ≠ "" ∧ '/' ∉ owner.data ∧
    repo ≠ "" ∧ '/' ∉ repo.data ∧
    num ≠ "" ∧ (∀ c ∈ num.data, c.isDigit = true) ∧
    (match sha with
     | none =>
        s = "https://" ++ host ++ "/" ++ owner ++ "/" ++ repo ++ "/pull/" ++ num
     | some sh =>
        sh ≠ "" ∧ (∀ c ∈ sh.data, isLowerHex c = true) ∧
        s = "https://" ++ host ++ "/" ++ owner ++ "/" ++ repo ++ "/pull/" ++ num
            ++ "/commits/" ++ sh)

/-- The shape the parser actually accepts: the (stripped) input starts with
`https://github.com/<owner>/<repo>/pull/<digits>` and may continue with
anything at all. -/
def PrefixShape (s : List Char) : Prop :=
  ∃ owner repo num rest : List Char,
    owner ≠ [] ∧ '/' ∉ owner ∧
    repo ≠ [] ∧ '/' ∉ repo ∧
    num ≠ [] ∧ (∀ c ∈ num, c.isDigit = true) ∧
    s = githubPre ++ (owner ++ ('/' :: (repo ++ (pullSeg ++ (num ++ rest)))))

/-- What the regular expression captures as the pinned SHA from the text
following the PR number, stated independently of the parser: the maximal
lowercase-hex prefix of the segment after a literal `/commits/`, absent
when that prefix is empty or the literal is missing. -/
def shaSpec (rest : List Char) : Option (List Char) :=
  if commitsSeg.isPrefixOf rest then
    if (rest.drop commitsSeg.length).takeWhile isLowerHex = [] then none
    else some ((rest.drop commitsSeg.length).takeWhile isLowerHex)
  else none

/-! ## PR metadata: the fields of the API response the script reads -/

/-- The repository part of the PR payload (`repo['full_name']`,
`repo['owner']['login']`, `repo['name']`). -/
structure RepoInfo where
  full_name : String
  owner_login : String
  name : String
deriving DecidableEq

/-- The fields of the pull-request API payload that `process_pr` and
`_get_commit_repo_info` read. -/
structure PullRequestInfo where
  state : String
  merged : Bool
  base_ref : String
  base_sha : String
  head_sha : String
  head_repo : RepoInfo
  base_repo : RepoInfo
  title : String
  body : String
  html_url : String
deriving DecidableEq

/-- `_get_commit_repo_info` (lines 62-87): pick the pinned SHA (Python `or`
falls back to the head SHA), then choose the head repository for fork-based
PRs (`full_name` differs) and the base repository otherwise. -/
def get_commit_repo_info (info : PullRequestInfo) (targetSha : Option String) :
    String × String × String :=
  let commitSha := pyOrStr targetSha info.head_sha
  if info.head_repo.full_name ≠ info.base_repo.full_name then
    (info.head_repo.owner_login, info.head_repo.name, commitSha)
  else
    (info.base_repo.owner_login, info.base_repo.name, commitSha)

/-! ## HTTP-backed helpers -/

/-- Outcome of a `requests` call: either a response (status code plus the
message field of the decoded JSON body, where relevant) or a raised
`requests.RequestException`. -/
inductive HttpResult where
  | response : Nat → String → HttpResult
  | netError : HttpResult
deriving DecidableEq

/-- `check_repo_exists` (lines 45-54): `status_code == 200`, any
`RequestException` is caught and yields `False`.  The response body is
never inspected. -/
def check_repo_exists (r : HttpResult) : Bool :=
  match r with
  | .response status _ => status == 200
  | .netError => false

/-- `_create_pull_request` (lines 198-225), reduced to its decision on the
POST outcome: 201 succeeds; 422 succeeds exactly when the lowercased
message contains `already exists`; everything else (other statuses, raised
`RequestException`) fails. -/
def create_pull_request (r : HttpResult) : Bool :=
  match r with
  | .response status message =>
    if status == 201 then true
    else if status == 422 then containsSubstr (pyLower message) "already exists"
    else false
  | .netError => false

/-! ## Branch Materializer: subprocess-level model -/

/-- Result of one `subprocess.run` call. -/
structure SubprocResult where
  returncode : Int
  stdout : String
  stderr : String
deriving DecidableEq

/-- Outcomes of the subprocess steps executed by `_create_branch_from_base`
(lines 227-396), in program order.  The two `git config` calls ignore their
results and the local file-system operations only touch the ephemeral
directory, so neither appears here. -/
structure FromBaseEnv where
  cloneTarget : SubprocResult
  checkoutBase : SubprocResult
  createBranch : SubprocResult
  cloneOriginal : SubprocResult
  archive : SubprocResult
  extract : SubprocResult
  addAll : SubprocResult
  commit : SubprocResult
  push : SubprocResult
deriving DecidableEq

/-- `_create_branch_from_base` control flow over the subprocess outcomes:
every failing step aborts with `False`, except a failing commit whose
stdout contains `nothing to commit`, which skips the commit and still
pushes. -/
def create_branch_from_base (env : FromBaseEnv) : Bool :=
  if env.cloneTarget.returncode != 0 then false
  else if env.checkoutBase.returncode != 0 then false
  else if env.createBranch.returncode != 0 then false
  else if env.cloneOriginal.returncode != 0 then false
  else if env.archive.returncode != 0 then false
  else if env.extract.returncode != 0 then false
  else if env.addAll.returncode != 0 then false
  else if env.commit.returncode != 0 then
    if containsSubstr env.commit.stdout "nothing to commit" then
      env.push.returncode == 0
    else false
  else env.push.returncode == 0

/-- Outcomes of the subprocess steps executed by
`_create_orphan_branch_with_commit` (lines 398-532), in program order. -/
structure OrphanEnv where
  cloneSource : SubprocResult
  gitInit : SubprocResult
  archive : SubprocResult
  extract : SubprocResult
  addAll : SubprocResult
  commit : SubprocResult
  addRemote : SubprocResult
  push : SubprocResult
deriving DecidableEq

/-- `_create_orphan_branch_with_commit` control flow over the subprocess
outcomes: every failing step aborts with `False`; the commit step has no
`nothing to commit` special case (lines 501-504). -/
def create_orphan_branch_with_commit (env : OrphanEnv) : Bool :=
  if env.cloneSource.returncode != 0 then false
  else if env.gitInit.returncode != 0 then false
  else if env.archive.returncode != 0 then false
  else if env.extract.returncode != 0 then false
  else if env.addAll.returncode != 0 then false
  else if env.commit.returncode != 0 then false
  else if env.addRemote.returncode != 0 then false
  else env.push.returncode == 0

/-! ## Branch naming (lines 598-602) -/

/-- `main_branch_name = f"{pr_info['base']['ref']}-{pr_number}"`. -/
def mainBranchName (baseRef : String) (n : Nat) : String :=
  baseRef ++ "-" ++ Nat.repr n

/-- `pr_branch_name = f"pr-{pr_number}"`, extended with
`f"-{target_commit_sha[:8]}"` when a commit SHA was pinned (Python
truthiness: `None` and the empty string add no suffix). -/
def prBranchName (n : Nat) (t : Option String) : String :=
  match t with
  | none => "pr-" ++ Nat.repr n
  | some s =>
    if s = "" then "pr-" ++ Nat.repr n
    else "pr-" ++ Nat.repr n ++ "-" ++ s.take 8

/-! ## Mirror Orchestrator: `process_pr` (lines 534-652) -/

/-- Externally visible operations the orchestrator performs, in order.
Materialization actions carry the branch name and the source commit SHA
passed to the materializer. -/
inductive OrchAction where
  | checkRepo : OrchAction
  | createRepo : OrchAction
  | fetchPR : OrchAction
  | checkBranch : String → OrchAction
  | materializeOrphan : String → String → OrchAction
  | materializeFromBase : String → String → OrchAction
  | openPR : Bool → OrchAction
deriving DecidableEq

/-- Is an action one of the two branch-materialization calls? -/
def isMaterialization : OrchAction → Bool
  | .materializeOrphan _ _ => true
  | .materializeFromBase _ _ => true
  | _ => false

/-- Oracle for the fallible sub-operations `process_pr` performs, in program
order: repository existence check, repository creation, PR-info fetch
(`none` models a raised request error), the two branch-existence checks,
the two materializer results, and the PR-creation result. -/
structure OrchEnv where
  repoExists : Bool
  createRepoOk : Bool
  fetchResult : Option PullRequestInfo
  mainBranchExists : Bool
  prBranchExists : Bool
  orphanResult : Bool
  fromBaseResult : Bool
  createPrResult : Bool
deriving DecidableEq

/-- `process_pr` (lines 534-652): parse, ensure the mirror repository,
fetch the PR, compute the branch names, ensure each branch (skipping
materialization when the existence check succeeds, and recording a failure
without stopping), then attempt PR creation only when both branch steps
succeeded.  Returns the overall result together with the trace of external
actions performed; a parse failure performs no network action at all
(the `ValueError` is caught at line 644). -/
def process_pr (env : OrchEnv) (url : String) : Bool × List OrchAction :=
  match parse_pr_url url with
  | .error _ => (false, [])
  | .ok (_, _, prNumber, targetSha) =>
    let repoActs : List OrchAction :=
      if env.repoExists then [OrchAction.checkRepo]
      else [OrchAction.checkRepo, OrchAction.createRepo]
    if !env.repoExists && !env.createRepoOk then
      (false, repoActs)
    else
      match env.fetchResult with
      | none => (false, repoActs ++ [OrchAction.fetchPR])
      | some info =>
        let mainName := mainBranchName info.base_ref prNumber
        let prName := prBranchName prNumber targetSha
        let prSha := (get_commit_repo_info info targetSha).2.2
        let mainActs : List OrchAction :=
          if env.mainBranchExists then [OrchAction.checkBranch mainName]
          else [OrchAction.checkBranch mainName,
                OrchAction.materializeOrphan mainName info.base_sha]
        let mainOk := env.mainBranchExists || env.orphanResult
        let prActs : List OrchAction :=
          if env.prBranchExists then [OrchAction.checkBranch prName]
          else [OrchAction.checkBranch prName,
                OrchAction.materializeFromBase prName prSha]
        let prOk := env.prBranchExists || env.fromBaseResult
        let success := mainOk && prOk
        let tailActs : List OrchAction :=
          if success then [OrchAction.openPR env.createPrResult] else []
        (success, repoActs ++ OrchAction.fetchPR :: (mainActs ++ (prActs ++ tailActs)))

/-! ## Concrete fixtures used by witnesses and counterexamples -/

/-- A fork head repository. -/
def repoFork : RepoInfo := ⟨"alice/widget", "alice", "widget"⟩

/-- The upstream base repository. -/
def repoBase : RepoInfo := ⟨"org/widget", "org", "widget"⟩

/-- A fork-based pull request. -/
def infoFork : PullRequestInfo :=
  ⟨"open", false, "main", "1111111111", "2222222222", repoFork, repoBase,
   "Title", "Body", "https://github.com/org/widget/pull/42"⟩

/-- A same-repository pull request. -/
def infoSame : PullRequestInfo :=
  ⟨"open", false, "main", "1111111111", "2222222222", repoBase, repoBase,
   "Title", "Body", "https://github.com/org/widget/pull/42"⟩

/-- A successful subprocess step. -/
def okStep : SubprocResult := ⟨0, "", ""⟩

/-- A failing commit step whose output reports an empty diff. -/
def noopCommitStep : SubprocResult :=
  ⟨1, "On branch pr-42 nothing to commit, working tree clean", ""⟩

/-- Orphan-variant environment in which only the commit step fails, and it
fails because there is nothing to commit. -/
def orphanNoopEnv : OrphanEnv :=
  ⟨okStep, okStep, okStep, okStep, okStep, noopCommitStep, okStep, okStep⟩

/-- fromBase-variant environment in which only the commit step fails, and
it fails because there is nothing to commit. -/
def fromBaseNoopEnv : FromBaseEnv :=
  ⟨okStep, okStep, okStep, okStep, okStep, okStep, okStep, noopCommitStep, okStep⟩

/-- Orchestrator oracle: everything present and succeeding. -/
def envAllOk : OrchEnv :=
  ⟨true, true, some infoFork, true, true, true, true, true⟩

/-- Orchestrator oracle: neither branch exists, the base-state
materialization fails, the PR-state materialization succeeds. -/
def envBaseFails : OrchEnv :=
  ⟨true, true, some infoFork, false, false, false, true, true⟩

/-- A well-formed fork PR URL. -/
def urlFork : String := "https://github.com/alice/widget/pull/42"

/-! ## Helper lemmas about lists and the primitives -/

lemma dropPre_self_append (pre rest : List Char) :
    dropPre pre (pre ++ rest) = some rest := by
  induction pre with
  | nil => rfl
  | cons c cs ih => simp [dropPre, ih]

lemma dropPre_eq_some {pre s t : List Char} (h : dropPre pre s = some t) :
    s = pre ++ t := by
  induction pre generalizing s with
  | nil =>
    simp only [dropPre, Option.some.injEq] at h
    simp [h]
  | cons c cs ih =>
    cases s with
    | nil => simp [dropPre] at h
    | cons d ds =>
      by_cases hcd : c = d
      · subst hcd
        simp only [dropPre, if_pos rfl] at h
        simpa using ih h
      · simp [dropPre, hcd] at h

lemma dropPre_eq_ite (pre s : List Char) :
    dropPre pre s =
      if pre.isPrefixOf s then some (s.drop pre.length) else none := by
  induction pre generalizing s with
  | nil => simp [dropPre, List.isPrefixOf]
  | cons c cs ih =>
    cases s with
    | nil => simp [dropPre, List.isPrefixOf]
    | cons d ds =>
      by_cases hcd : c = d
      · subst hcd
        simp [dropPre, List.isPrefixOf, ih]
      · simp [dropPre, List.isPrefixOf, hcd]

lemma drop_length_append (l r : List Char) : (l ++ r).drop l.length = r := by
  induction l with
  | nil => rfl
  | cons c cs ih => simp [ih]

lemma takeWhile_append_all {p : Char → Bool} {l : List Char} (r : List Char)
    (h : ∀ c ∈ l, p c = true) :
    (l ++ r).takeWhile p = l ++ r.takeWhile p := by
  induction l with
  | nil => rfl
  | cons c cs ih =>
    have hc : p c = true := h c (by simp)
    simp [List.takeWhile_cons, hc, ih (fun x hx => h x (by simp [hx]))]

lemma takeWhile_pred {p : Char → Bool} {l : List Char} {c : Char}
    (h : c ∈ l.takeWhile p) : p c = true := by
  induction l with
  | nil => simp at h
  | cons d ds ih =>
    rw [List.takeWhile_cons] at h
    by_cases hd : p d
    · simp [hd] at h
      rcases h with h | h
      · subst h; exact hd
      · exact ih h
    · simp [hd] at h

lemma drop_takeWhile_len (p : Char → Bool) (l : List Char) :
    l.drop (l.takeWhile p).length = l.dropWhile p := by
  induction l with
  | nil => rfl
  | cons c cs ih =>
    by_cases hc : p c
    · simp [List.takeWhile_cons, List.dropWhile_cons, hc, ih]
    · simp [List.takeWhile_cons, List.dropWhile_cons, hc]

lemma listContainsSub_iff_infix (s pat : List Char) :
    listContainsSub s pat = true ↔ pat <:+: s := by
  induction s with
  | nil =>
    simp [listContainsSub, List.isEmpty_iff]
  | cons c tl ih =>
    rw [listContainsSub]
    simp [List.infix_cons_iff, ih]

/-! ## C1 and C2: the Commit Locator -/

/-- C1: `_get_commit_repo_info` returns the head repository's owner and
name when the head and base repositories' full names differ, and the base
repository's owner and name when they are equal. -/
theorem get_commit_repo_info_fork_resolution (info : PullRequestInfo)
    (t : Option String) :
    (info.head_repo.full_name ≠ info.base_repo.full_name →
      (get_commit_repo_info info t).1 = info.head_repo.owner_login ∧
      (get_commit_repo_info info t).2.1 = info.head_repo.name) ∧
    (info.head_repo.full_name = info.base_repo.full_name →
      (get_commit_repo_info info t).1 = info.base_repo.owner_login ∧
      (get_commit_repo_info info t).2.1 = info.base_repo.name) := by
  unfold get_commit_repo_info
  by_cases h : info.head_repo.full_name = info.base_repo.full_name <;> simp [h]

/-- Closed instance of C1 at a fork-based and a same-repository PR. -/
theorem get_commit_repo_info_fork_resolution_witness :
    (get_commit_repo_info infoFork none).1 = "alice" ∧
    (get_commit_repo_info infoSame none).1 = "org" := by
  constructor
  · exact ((get_commit_repo_info_fork_resolution infoFork none).1
      (by decide)).1
  · exact ((get_commit_repo_info_fork_resolution infoSame none).2 rfl).1

/-- C2: the SHA returned by `_get_commit_repo_info` is the pinned SHA when
a non-empty one is supplied and the PR head SHA otherwise, independent of
the fork check. -/
theorem get_commit_repo_info_pinned_sha (info : PullRequestInfo)
    (t : Option String) (s : String) :
    (t = some s → s ≠ "" → (get_commit_repo_info info t).2.2 = s) ∧
    (t = none → (get_commit_repo_info info t).2.2 = info.head_sha) := by
  constructor
  · rintro rfl hs
    unfold get_commit_repo_info pyOrStr
    by_cases h : info.head_repo.full_name = info.base_repo.full_name <;>
      simp [h, hs]
  · rintro rfl
    unfold get_commit_repo_info pyOrStr
    by_cases h : info.head_repo.full_name = info.base_repo.full_name <;>
      simp [h]

/-- Closed instance of C2 with and without a pinned SHA. -/
theorem get_commit_repo_info_pinned_sha_witness :
    (get_commit_repo_info infoFork (some "abc123")).2.2 = "abc123" ∧
    (get_commit_repo_info infoSame none).2.2 = "2222222222" := by
  constructor
  · exact (get_commit_repo_info_pinned_sha infoFork (some "abc123")
      "abc123").1 rfl (by decide)
  · exact (get_commit_repo_info_pinned_sha infoSame none "x").2 rfl

/-! ## C3: no-op commit handling in the two materializer variants -/

/-- C3 counterexample: in the orphan variant a commit step that fails with
`nothing to commit` in its output makes the whole operation fail, even
though every other step (including the push) would succeed — the claimed
skip-and-push behaviour exists only in the fromBase variant. -/
theorem orphan_noop_commit_fails :
    create_orphan_branch_with_commit orphanNoopEnv = false ∧
    containsSubstr orphanNoopEnv.commit.stdout "nothing to commit" = true ∧
    orphanNoopEnv.push.returncode = 0 := by
  refine ⟨rfl, ?_, rfl⟩
  decide

/-- C3 (amended): only `_create_branch_from_base` treats a commit that
reports `nothing to commit` as a skip followed by an unconditional push
(succeeding exactly when the push succeeds);
`_create_orphan_branch_with_commit` fails whenever its commit step fails,
including the nothing-to-commit case. -/
theorem noop_commit_handling (envF : FromBaseEnv) (envO : OrphanEnv) :
    (envF.cloneTarget.returncode = 0 → envF.checkoutBase.returncode = 0 →
     envF.createBranch.returncode = 0 → envF.cloneOriginal.returncode = 0 →
     envF.archive.returncode = 0 → envF.extract.returncode = 0 →
     envF.addAll.returncode = 0 → envF.commit.returncode ≠ 0 →
     containsSubstr envF.commit.stdout "nothing to commit" = true →
     create_branch_from_base envF = (envF.push.returncode == 0)) ∧
    (envO.commit.returncode ≠ 0 →
     create_orphan_branch_with_commit envO = false) := by
  constructor
  · intro h1 h2 h3 h4 h5 h6 h7 h8 h9
    simp [create_branch_from_base, h1, h2, h3, h4, h5, h6, h7, h8, h9,
      bne_iff_ne]
  · intro h
    have hb : (envO.commit.returncode != 0) = true := by
      simpa [bne_iff_ne] using h
    simp [create_orphan_branch_with_commit, hb]

/-- Closed instance of the amended C3: the fromBase variant succeeds on the
no-op-commit environment, the orphan variant fails on its counterpart. -/
theorem noop_commit_handling_witness :
    create_branch_from_base fromBaseNoopEnv = true ∧
    create_orphan_branch_with_commit orphanNoopEnv = false := by
  constructor
  · have := (noop_commit_handling fromBaseNoopEnv orphanNoopEnv).1
      rfl rfl rfl rfl rfl rfl rfl (by decide) (by decide)
    simpa using this
  · exact (noop_commit_handling fromBaseNoopEnv orphanNoopEnv).2 (by decide)

/-! ## C5: branch-name determinism -/

/-- C5: the base-state branch name is the base ref, a dash and the PR
number; the PR-state branch name is `pr-` plus the number, extended with a
dash and the first eight characters of the pinned SHA when one is present;
in particular base ref `main` and PR 42 give `main-42` and `pr-42`. -/
theorem branch_naming (B : String) (N : Nat) (S : String) :
    mainBranchName B N = B ++ "-" ++ Nat.repr N ∧
    prBranchName N none = "pr-" ++ Nat.repr N ∧
    (S ≠ "" →
      prBranchName N (some S) = "pr-" ++ Nat.repr N ++ "-" ++ S.take 8) ∧
    mainBranchName "main" 42 = "main-42" ∧
    prBranchName 42 none = "pr-42" := by
  refine ⟨rfl, rfl, fun h => ?_, by decide, by decide⟩
  simp [prBranchName, h]

/-- Closed instance of C5 with a pinned SHA longer than eight characters. -/
theorem branch_naming_witness :
    prBranchName 7 (some "deadbeef123") = "pr-7-deadbeef" := by
  have := (branch_naming "main" 7 "deadbeef123").2.2.1 (by decide)
  rw [this]
  decide

/-! ## C8: pull-request creation outcomes -/

/-- C8 counterexample: a 422 whose message does not contain the literal
substring `already exists` (it contains a capitalized variant) is still
treated as success, because the code lowercases the message first. -/
theorem create_pull_request_mixed_case :
    create_pull_request
      (HttpResult.response 422 "A Pull Request Already Exists for this branch")
      = true ∧
    containsSubstr "A Pull Request Already Exists for this branch"
      "already exists" = false := by
  constructor
  · decide
  · decide

/-- C8 (amended): `_create_pull_request` succeeds on status 201, and on
status 422 exactly when the lowercased message contains `already exists`
(so any message containing the literal substring also succeeds); every
other status, and a raised request exception, fails. -/
theorem create_pull_request_status_cases (status : Nat) (msg : String) :
    (create_pull_request (HttpResult.response status msg) = true ↔
      status = 201 ∨
        (status = 422 ∧ containsSubstr (pyLower msg) "already exists" = true)) ∧
    create_pull_request HttpResult.netError = false ∧
    (containsSubstr msg "already exists" = true →
      containsSubstr (pyLower msg) "already exists" = true) := by
  refine ⟨?_, rfl, ?_⟩
  · unfold create_pull_request
    by_cases h1 : status = 201
    · simp [h1]
    · by_cases h2 : status = 422 <;> simp [h1, h2]
  · intro h
    rw [containsSubstr, listContainsSub_iff_infix] at h ⊢
    have hmap := h.map Char.toLower
    have heq : "already exists".data.map Char.toLower = "already exists".data := by
      decide
    rw [heq] at hmap
    simpa [pyLower] using hmap

/-- Closed instance of the amended C8: 201 succeeds, a mixed-case 422
succeeds, a 422 without the substring fails, a 500 fails. -/
theorem create_pull_request_status_cases_witness :
    create_pull_request (HttpResult.response 201 "") = true ∧
    create_pull_request (HttpResult.response 422 "Validation Failed") = false ∧
    create_pull_request (HttpResult.response 500 "oops") = false := by
  refine ⟨?_, ?_, ?_⟩
  · exact (create_pull_request_status_cases 201 "").1.mpr (Or.inl rfl)
  · have h := (create_pull_request_status_cases 422 "Validation Failed").1
    cases hc : create_pull_request (HttpResult.response 422 "Validation Failed")
    · rfl
    · rcases h.mp hc with h201 | ⟨_, hsub⟩
      · cases h201
      · exact absurd hsub (by decide)
  · have h := (create_pull_request_status_cases 500 "oops").1
    cases hc : create_pull_request (HttpResult.response 500 "oops")
    · rfl
    · rcases h.mp hc with h201 | ⟨h422, _⟩
      · cases h201
      · cases h422

/-! ## C9: repository existence check -/

/-- C9: `check_repo_exists` returns true exactly for a status-200 response;
all other statuses and a raised request exception yield false. -/
theorem check_repo_exists_iff (r : HttpResult) :
    (check_repo_exists r = true ↔ ∃ msg, r = HttpResult.response 200 msg) ∧
    check_repo_exists HttpResult.netError = false := by
  constructor
  · cases r with
    | response status msg =>
      constructor
      · intro h
        simp only [check_repo_exists, beq_iff_eq] at h
        exact ⟨msg, by rw [h]⟩
      · rintro ⟨m, hm⟩
        cases hm
        rfl
    | netError => simp [check_repo_exists]
  · rfl

/-- Closed instance of C9: status 200 exists, status 404 and a network
error do not. -/
theorem check_repo_exists_iff_witness :
    check_repo_exists (HttpResult.response 200 "") = true ∧
    check_repo_exists (HttpResult.response 404 "") = false := by
  constructor
  · exact (check_repo_exists_iff (HttpResult.response 200 "")).1.mpr ⟨"", rfl⟩
  · have h := (check_repo_exists_iff (HttpResult.response 404 "")).1
    cases hc : check_repo_exists (HttpResult.response 404 "")
    · rfl
    · rcases h.mp hc with ⟨m, hm⟩
      cases hm

/-! ## Parser computation lemmas -/

lemma takeWhile_notSlash_slashHead (t : List Char) :
    ('/' :: t).takeWhile notSlash = [] := by
  simp [List.takeWhile_cons, notSlash]

lemma dropPre_slash_cons (t : List Char) : dropPre ['/'] ('/' :: t) = some t := by
  simp [dropPre]

lemma shaCode_eq_shaSpec (rest : List Char) : shaCode rest = shaSpec rest := by
  unfold shaCode shaSpec
  rw [dropPre_eq_ite]
  by_cases h : commitsSeg.isPrefixOf rest <;> simp [h]

lemma notSlash_of_not_mem {l : List Char} (h : '/' ∉ l) :
    ∀ c ∈ l, notSlash c = true := by
  intro c hc
  by_cases hceq : c = '/'
  · exact absurd (hceq ▸ hc) h
  · simp [notSlash, hceq]

lemma parseCore_on_decomp (owner repo num rest : List Char)
    (ho : owner ≠ []) (hos : '/' ∉ owner)
    (hr : repo ≠ []) (hrs : '/' ∉ repo)
    (hn : num ≠ []) (hnd : ∀ c ∈ num, c.isDigit = true) :
    parseCore
      (githubPre ++ (owner ++ ('/' :: (repo ++ (pullSeg ++ (num ++ rest)))))) =
    some (owner, repo, num ++ rest.takeWhile Char.isDigit,
      shaCode (rest.dropWhile Char.isDigit)) := by
  have hps : pullSeg = '/' :: "pull/".data := rfl
  have h1 : (owner ++ ('/' :: (repo ++ (pullSeg ++ (num ++ rest))))).takeWhile
      notSlash = owner := by
    rw [takeWhile_append_all _ (notSlash_of_not_mem hos),
      takeWhile_notSlash_slashHead, List.append_nil]
  have h2 : (repo ++ (pullSeg ++ (num ++ rest))).takeWhile notSlash = repo := by
    rw [takeWhile_append_all _ (notSlash_of_not_mem hrs), hps,
      List.cons_append, takeWhile_notSlash_slashHead, List.append_nil]
  have h3 : (num ++ rest).takeWhile Char.isDigit =
      num ++ rest.takeWhile Char.isDigit := takeWhile_append_all _ hnd
  have h4 : num ++ rest.takeWhile Char.isDigit ≠ [] := by
    intro hcontra
    exact hn (List.append_eq_nil.mp hcontra).1
  have h5 : (num ++ rest).drop
      (num ++ rest.takeWhile Char.isDigit).length =
      rest.dropWhile Char.isDigit := by
    have hsplit : num ++ rest =
        (num ++ rest.takeWhile Char.isDigit) ++ rest.dropWhile Char.isDigit := by
      rw [List.append_assoc, List.takeWhile_append_dropWhile]
    rw [hsplit, drop_length_append]
  unfold parseCore
  simp only [dropPre_self_append, h1, drop_length_append, dropPre_slash_cons,
    h2, h3, h5]
  rw [if_neg ho, if_neg hr, if_neg h4]

lemma parseCore_isSome_iff (s : List Char) :
    (parseCore s).isSome = true ↔ PrefixShape s := by
  constructor
  · intro h
    unfold parseCore at h
    split at h
    · simp at h
    next s1 heq1 =>
      split at h
      · simp at h
      next hcond1 =>
        split at h
        · simp at h
        next s2 heq2 =>
          split at h
          · simp at h
          next hcond2 =>
            split at h
            · simp at h
            next s3 heq3 =>
              split at h
              · simp at h
              next hcond3 =>
                rw [drop_takeWhile_len] at heq2 heq3
                have e1 : s = githubPre ++ s1 := dropPre_eq_some heq1
                have e2 : s1 = s1.takeWhile notSlash ++ ('/' :: s2) := by
                  conv_lhs => rw [← List.takeWhile_append_dropWhile notSlash s1]
                  rw [dropPre_eq_some heq2, List.singleton_append]
                have e4 : s2 = s2.takeWhile notSlash ++ (pullSeg ++ s3) := by
                  conv_lhs => rw [← List.takeWhile_append_dropWhile notSlash s2]
                  rw [dropPre_eq_some heq3]
                have e5 : s3 = s3.takeWhile Char.isDigit ++
                    s3.dropWhile Char.isDigit :=
                  (List.takeWhile_append_dropWhile Char.isDigit s3).symm
                refine ⟨s1.takeWhile notSlash, s2.takeWhile notSlash,
                  s3.takeWhile Char.isDigit, s3.dropWhile Char.isDigit,
                  hcond1, ?_, hcond2, ?_, hcond3, ?_, ?_⟩
                · intro hmem
                  have := takeWhile_pred hmem
                  simp [notSlash] at this
                · intro hmem
                  have := takeWhile_pred hmem
                  simp [notSlash] at this
                · exact fun c hc => takeWhile_pred hc
                · calc s = githubPre ++ s1 := e1
                    _ = githubPre ++ (s1.takeWhile notSlash ++ ('/' :: s2)) := by
                        rw [← e2]
                    _ = githubPre ++ (s1.takeWhile notSlash ++ ('/' ::
                          (s2.takeWhile notSlash ++ (pullSeg ++ s3)))) := by
                        rw [← e4]
                    _ = githubPre ++ (s1.takeWhile notSlash ++ ('/' ::
                          (s2.takeWhile notSlash ++ (pullSeg ++
                            (s3.takeWhile Char.isDigit ++
                              s3.dropWhile Char.isDigit))))) := by
                        rw [← e5]
  · rintro ⟨owner, repo, num, rest, ho, hos, hr, hrs, hn, hnd, rfl⟩
    rw [parseCore_on_decomp owner repo num rest ho hos hr hrs hn hnd]
    rfl

/-! ## C6 and C10: the URL Resolver contract -/

/-- C6 counterexample: the string `https://gitlab.com/a/b/pull/1` matches
the spec's claimed shape `https://<host>/<owner>/<repo>/pull/<number>` yet
`_parse_pr_url` rejects it, because the implemented pattern hard-codes the
host `github.com`. -/
theorem parse_pr_url_rejects_spec_shape :
    SpecShape "https://gitlab.com/a/b/pull/1" ∧
    parse_pr_url "https://gitlab.com/a/b/pull/1" =
      Except.error "https://gitlab.com/a/b/pull/1" := by
  constructor
  · exact ⟨"gitlab.com", "a", "b", "1", none, by decide, by decide, by decide,
      by decide, by decide, by decide, by decide, by decide, by decide⟩
  · rfl

/-- C6 (amended): `_parse_pr_url` succeeds exactly when the stripped input
begins with `https://github.com/<owner>/<repo>/pull/<digits>` — the host is
fixed to `github.com` and arbitrary trailing characters are permitted
(including a malformed `/commits/...` tail); on failure the raised error
carries the offending string, and the orchestrator then performs no
external action at all. -/
theorem parse_pr_url_contract (url : String) :
    ((∃ v, parse_pr_url url = Except.ok v) ↔ PrefixShape (pyStrip url.data)) ∧
    (∀ e, parse_pr_url url = Except.error e → e = url) ∧
    (∀ env e, parse_pr_url url = Except.error e →
      process_pr env url = (false, [])) := by
  refine ⟨?_, ?_, ?_⟩
  · rw [← parseCore_isSome_iff]
    unfold parse_pr_url
    cases hp : parseCore (pyStrip url.data) with
    | none => simp
    | some g =>
      obtain ⟨o, r, num, sha⟩ := g
      simp
  · intro e he
    unfold parse_pr_url at he
    cases hp : parseCore (pyStrip url.data) with
    | none =>
      rw [hp] at he
      simp only [Except.error.injEq] at he
      exact he.symm
    | some g =>
      obtain ⟨o, r, num, sha⟩ := g
      rw [hp] at he
      simp at he
  · intro env e he
    unfold process_pr
    rw [he]

/-- Closed instance of the amended C6: a well-formed URL parses, and on a
malformed input the orchestrator performs no action. -/
theorem parse_pr_url_contract_witness :
    (∃ v, parse_pr_url urlFork = Except.ok v) ∧
    process_pr envAllOk "nonsense" = (false, []) := by
  constructor
  · exact (parse_pr_url_contract urlFork).1.mpr
      ⟨"alice".data, "widget".data, "42".data, [], by decide, by decide,
        by decide, by decide, by decide, by decide, by decide⟩
  · exact (parse_pr_url_contract "nonsense").2.2 envAllOk "nonsense" rfl

/-- C10 counterexample: for `/commits/abcZ` — a SHA segment containing a
character outside lowercase hex — the parser does not ignore the segment:
it captures the hex prefix `abc` as the pinned SHA instead of returning no
pinned SHA. -/
theorem parse_pr_url_hex_prefix_captured :
    parse_pr_url "https://github.com/a/b/pull/1/commits/abcZ" =
      Except.ok ("a", "b", 1, some "abc") ∧
    (some "abc" : Option String) ≠ none := by
  constructor
  · rfl
  · decide

/-- C10 (amended): parsing is prefix-based — on any input of the form
`https://github.com/<owner>/<repo>/pull/<digits><rest>` (with `<rest>` not
starting with a digit and no surrounding whitespace) parsing succeeds, and
the pinned SHA is the maximal lowercase-hex prefix of the segment following
a literal `/commits/` in `<rest>`; the segment is ignored (no pinned SHA)
only when that prefix is empty or the literal is absent. -/
theorem parse_pr_url_prefix_based (owner repo num rest : List Char)
    (ho : owner ≠ []) (hos : '/' ∉ owner)
    (hr : repo ≠ []) (hrs : '/' ∉ repo)
    (hn : num ≠ []) (hnd : ∀ c ∈ num, c.isDigit = true)
    (hrest : rest.head?.all (fun c => !c.isDigit) = true)
    (hs : pyStrip (githubPre ++ (owner ++ ('/' :: (repo ++ (pullSeg ++
              (num ++ rest)))))) =
          githubPre ++ (owner ++ ('/' :: (repo ++ (pullSeg ++ (num ++ rest)))))) :
    parse_pr_url (String.mk (githubPre ++ (owner ++ ('/' :: (repo ++
        (pullSeg ++ (num ++ rest))))))) =
      Except.ok (String.mk owner, String.mk repo, natOfDigits num,
        (shaSpec rest).map String.mk) := by
  have ht : rest.takeWhile Char.isDigit = [] := by
    cases rest with
    | nil => rfl
    | cons c cs =>
      simp only [List.head?_cons, Option.all_some] at hrest
      have hcd : c.isDigit = false := by simpa using hrest
      simp [List.takeWhile_cons, hcd]
  have hd : rest.dropWhile Char.isDigit = rest := by
    cases rest with
    | nil => rfl
    | cons c cs =>
      simp only [List.head?_cons, Option.all_some] at hrest
      have hcd : c.isDigit = false := by simpa using hrest
      simp [List.dropWhile_cons, hcd]
  unfold parse_pr_url
  rw [show (String.mk (githubPre ++ (owner ++ ('/' :: (repo ++ (pullSeg ++
      (num ++ rest))))))).data =
      githubPre ++ (owner ++ ('/' :: (repo ++ (pullSeg ++ (num ++ rest)))))
    from rfl, hs, parseCore_on_decomp owner repo num rest ho hos hr hrs hn hnd,
    ht, hd, List.append_nil, shaCode_eq_shaSpec]

/-- Closed instance of the amended C10 at the counterexample input. -/
theorem parse_pr_url_prefix_based_witness :
    parse_pr_url (String.mk (githubPre ++ ("a".data ++ ('/' :: ("b".data ++
        (pullSeg ++ ("1".data ++ "/commits/abcZ".data))))))) =
      Except.ok ("a", "b", 1, some "abc") := by
  have h := parse_pr_url_prefix_based "a".data "b".data "1".data
    "/commits/abcZ".data (by decide) (by decide) (by decide) (by decide)
    (by decide) (by decide) (by decide) (by decide)
  rw [h]
  rfl

/-! ## C4 and C7: orchestrator error flow and idempotent rerun -/

/-- C4: a base-branch failure does not prevent attempting the PR branch;
the pull request is opened exactly when both branch steps succeeded; and
the overall result is the conjunction of the two branch-step outcomes,
hence independent of the PR-creation outcome. -/
theorem process_pr_failure_isolation (env : OrchEnv) (url o r : String)
    (n : Nat) (t : Option String) (info : PullRequestInfo)
    (hp : parse_pr_url url = Except.ok (o, r, n, t))
    (hrepo : env.repoExists = true)
    (hfetch : env.fetchResult = some info) :
    (env.mainBranchExists = false → env.orphanResult = false →
      env.prBranchExists = false →
      ∃ name sha,
        OrchAction.materializeFromBase name sha ∈ (process_pr env url).2) ∧
    ((OrchAction.openPR env.createPrResult ∈ (process_pr env url).2) ↔
      ((env.mainBranchExists || env.orphanResult) &&
        (env.prBranchExists || env.fromBaseResult)) = true) ∧
    ((process_pr env url).1 =
      ((env.mainBranchExists || env.orphanResult) &&
        (env.prBranchExists || env.fromBaseResult))) := by
  refine ⟨?_, ?_, ?_⟩
  · intro hm horph hpr
    refine ⟨prBranchName n t, (get_commit_repo_info info t).2.2, ?_⟩
    simp [process_pr, hp, hrepo, hfetch, hm, horph, hpr]
  · by_cases hm : env.mainBranchExists <;>
      by_cases hpr : env.prBranchExists <;>
        by_cases horph : env.orphanResult <;>
          by_cases hfb : env.fromBaseResult <;>
            simp [process_pr, hp, hrepo, hfetch, hm, hpr, horph, hfb]
  · by_cases hm : env.mainBranchExists <;>
      by_cases hpr : env.prBranchExists <;>
        by_cases horph : env.orphanResult <;>
          by_cases hfb : env.fromBaseResult <;>
            simp [process_pr, hp, hrepo, hfetch, hm, hpr, horph, hfb]

/-- Closed instance of C4: with the base-branch materialization failing,
the PR-branch materialization is still attempted and the run reports
failure. -/
theorem process_pr_failure_isolation_witness :
    (∃ name sha,
      OrchAction.materializeFromBase name sha ∈
        (process_pr envBaseFails urlFork).2) ∧
    (process_pr envBaseFails urlFork).1 = false := by
  have h := process_pr_failure_isolation envBaseFails urlFork "alice" "widget"
    42 none infoFork rfl rfl rfl
  refine ⟨h.1 rfl rfl rfl, ?_⟩
  rw [h.2.2]
  rfl

/-- C7: when a branch-existence check reports the branch present, the
corresponding materializer is not invoked; with both branches present the
whole run performs zero materialization calls and still succeeds. -/
theorem process_pr_rerun_skips_materialization (env : OrchEnv)
    (url o r : String) (n : Nat) (t : Option String) (info : PullRequestInfo)
    (hp : parse_pr_url url = Except.ok (o, r, n, t))
    (hrepo : env.repoExists = true)
    (hfetch : env.fetchResult = some info) :
    (env.mainBranchExists = true → ∀ name sha,
      OrchAction.materializeOrphan name sha ∉ (process_pr env url).2) ∧
    (env.prBranchExists = true → ∀ name sha,
      OrchAction.materializeFromBase name sha ∉ (process_pr env url).2) ∧
    (env.mainBranchExists = true → env.prBranchExists = true →
      (process_pr env url).2.filter isMaterialization = [] ∧
      (process_pr env url).1 = true) := by
  refine ⟨?_, ?_, ?_⟩
  · intro hm name sha
    by_cases hpr : env.prBranchExists <;>
      by_cases hfb : env.fromBaseResult <;>
        simp [process_pr, hp, hrepo, hfetch, hm, hpr, hfb, isMaterialization]
  · intro hpr name sha
    by_cases hm : env.mainBranchExists <;>
      by_cases horph : env.orphanResult <;>
        simp [process_pr, hp, hrepo, hfetch, hm, hpr, horph, isMaterialization]
  · intro hm hpr
    simp [process_pr, hp, hrepo, hfetch, hm, hpr, isMaterialization]

/-- Closed instance of C7: a rerun with both branches present performs no
materialization and succeeds. -/
theorem process_pr_rerun_skips_materialization_witness :
    (process_pr envAllOk urlFork).2.filter isMaterialization = [] ∧
    (process_pr envAllOk urlFork).1 = true := by
  exact (process_pr_rerun_skips_materialization envAllOk urlFork "alice"
    "widget" 42 none infoFork rfl rfl rfl).2.2 rfl rfl
